import Mathlib

/-!
FTML — shallow embedding and verification

A shallow embedding of the FTML library (`src/ftml/`): the `ftml_core.py`
tokenizer/parser/serializer behind the public `load`/`dump` API, the
`tokenizer.py`/`parser.py` front-end driven by `FTMLDocument`, the
`ftml_data.py` simplifier, and the `validator.py` schema validator.

Python values are modelled by `PyValue`; text is modelled as `List Char`
(`Str`), and Python dicts as insertion-ordered association lists whose keys
are unique.  Mutation of a dict argument is modelled by threading the dict
through and returning its final state; exceptions are modelled by `Except`.
Where the Python code raises, the model returns an error value; error
message strings are reproduced exactly where a theorem depends on them and
abbreviated otherwise (noted at each definition).  Line/column bookkeeping,
which no property below depends on, is not modelled.
-/

set_option autoImplicit false

/-- Python text, modelled as a list of characters. -/
abbrev Str := List Char

/-- The single-quote character (apostrophe), used by the FTML tokenizer's
single-quoted string form. -/
def sqChar : Char := Char.ofNat 39

/-- A Python runtime value as produced by the FTML parsers and consumed by
the validator: `None`, `bool`, `int`, `float`, `str`, `list`, `dict`.
Floats keep their source literal text (no claim below evaluates float
arithmetic).  Dicts are insertion-ordered association lists. -/
inductive PyValue where
  | none
  | bool (b : Bool)
  | int (n : Int)
  | float (lit : Str)
  | str (s : Str)
  | list (xs : List PyValue)
  | dict (entries : List (Str × PyValue))

/-- Entries of a Python dict: insertion-ordered key/value pairs. -/
abbrev Assoc := List (Str × PyValue)

/-- First value bound to `k`, if any (Python `d[k]` / `k in d` lookup; a
Python dict holds each key at most once). -/
def pyLookup (d : Assoc) (k : Str) : Option PyValue :=
  match d with
  | [] => Option.none
  | (k', v) :: t => if k' = k then some v else pyLookup t k

/-- Python `k in d`. -/
def pyContains (d : Assoc) (k : Str) : Bool :=
  (pyLookup d k).isSome

/-- Python `d.get(k, dflt)`. -/
def pyGetD (d : Assoc) (k : Str) (dflt : PyValue) : PyValue :=
  (pyLookup d k).getD dflt

/-- Python `d[k] = v`: an existing key keeps its position and gets the new
value; a new key is appended at the end. -/
def pyInsert (d : Assoc) (k : Str) (v : PyValue) : Assoc :=
  match d with
  | [] => [(k, v)]
  | (k', v') :: t => if k' = k then (k', v) :: t else (k', v') :: pyInsert t k v

/-- Python `str.replace(pat, rep)` for a two-character pattern `a,b`:
non-overlapping replacement, scanning left to right. -/
def replace2 (a b : Char) (rep : Str) : Str → Str
  | [] => []
  | [c] => [c]
  | c1 :: c2 :: t =>
    if c1 = a ∧ c2 = b then rep ++ replace2 a b rep t
    else c1 :: replace2 a b rep (c2 :: t)

/-- Python `str.replace(pat, rep)` for a one-character pattern. -/
def replace1 (a : Char) (rep : Str) : Str → Str
  | [] => []
  | c :: t => if c = a then rep ++ replace1 a rep t else c :: replace1 a rep t

/-- Characters Python's `str.strip()` removes (ASCII whitespace; the
claims never feed non-ASCII whitespace). -/
def isPySpace (c : Char) : Bool :=
  c = ' ' ∨ c = '\t' ∨ c = '\n' ∨ c = '\r' ∨ c = '\x0b' ∨ c = '\x0c'

/-- Python `str.strip()`. -/
def pyStrip (s : Str) : Str :=
  ((s.dropWhile isPySpace).reverse.dropWhile isPySpace).reverse

/-- Python `str.rstrip(chars)`: remove trailing characters drawn from
`set`. -/
def pyRstripSet (s : Str) (set : List Char) : Str :=
  (s.reverse.dropWhile (· ∈ set)).reverse

/-- Python `str.lstrip(chars)` for the one-character set `{c}`. -/
def pyLstripChar (c : Char) (s : Str) : Str :=
  s.dropWhile (· = c)

/-- Python `str.split(sep)` for a one-character separator: splits at every
occurrence, keeping empty pieces (`''.split` gives `['']`). -/
def pySplit (sep : Char) : Str → List Str
  | [] => [[]]
  | c :: rest =>
    match pySplit sep rest with
    | [] => if c = sep then [[], []] else [[c]]
    | h :: tl => if c = sep then [] :: h :: tl else (c :: h) :: tl

/-- Python `int(s)` on a `[+-]?digits` literal. -/
def pyParseInt (s : Str) : Int :=
  match s with
  | '-' :: t => - (Int.ofNat (t.foldl (fun acc c => acc * 10 + (c.toNat - 48)) 0))
  | '+' :: t => Int.ofNat (t.foldl (fun acc c => acc * 10 + (c.toNat - 48)) 0)
  | t => Int.ofNat (t.foldl (fun acc c => acc * 10 + (c.toNat - 48)) 0)

/-- Python `str(n)` for an int. -/
def pyIntRepr (n : Int) : Str :=
  (toString n).data

/-- Python truthiness (`if x:`).  A float literal is falsy exactly when it
denotes zero, i.e. its digits are all `0`. -/
def pyTruthy : PyValue → Bool
  | .none => false
  | .bool b => b
  | .int n => n ≠ 0
  | .float lit =>
    ¬ ((match lit with | '-' :: t => t | '+' :: t => t | t => t).all
        (fun c => c = '0' ∨ c = '.'))
  | .str s => s ≠ []
  | .list xs => ¬ xs.isEmpty
  | .dict d => ¬ d.isEmpty

/-- The `type(v).__name__`. -/
def typeName : PyValue → Str
  | .none => "NoneType".data
  | .bool _ => "bool".data
  | .int _ => "int".data
  | .float _ => "float".data
  | .str _ => "str".data
  | .list _ => "list".data
  | .dict _ => "dict".data


mutual

/-- Boolean structural equality on `PyValue` (Python `==` on the value
shapes the parsers produce, used only to decide propositions below). -/
def beqPV : PyValue → PyValue → Bool
  | .none, .none => true
  | .bool a, .bool b => a = b
  | .int a, .int b => a = b
  | .float a, .float b => a = b
  | .str a, .str b => a = b
  | .list xs, .list ys => beqPVList xs ys
  | .dict xs, .dict ys => beqPVEntries xs ys
  | _, _ => false

/-- Elementwise `beqPV` on lists. -/
def beqPVList : List PyValue → List PyValue → Bool
  | [], [] => true
  | x :: xs, y :: ys => beqPV x y && beqPVList xs ys
  | _, _ => false

/-- Entrywise `beqPV` on dict entries. -/
def beqPVEntries : List (Str × PyValue) → List (Str × PyValue) → Bool
  | [], [] => true
  | (k, v) :: xs, (k', v') :: ys => k = k' && (beqPV v v' && beqPVEntries xs ys)
  | _, _ => false

end

mutual

theorem beqPV_refl : ∀ a : PyValue, beqPV a a = true
  | .none => rfl
  | .bool a => by simp [beqPV]
  | .int a => by simp [beqPV]
  | .float a => by simp [beqPV]
  | .str a => by simp [beqPV]
  | .list xs => by simp [beqPV, beqPVList_refl xs]
  | .dict xs => by simp [beqPV, beqPVEntries_refl xs]

theorem beqPVList_refl : ∀ xs : List PyValue, beqPVList xs xs = true
  | [] => rfl
  | x :: xs => by simp [beqPVList, beqPV_refl x, beqPVList_refl xs]

theorem beqPVEntries_refl : ∀ xs : List (Str × PyValue), beqPVEntries xs xs = true
  | [] => rfl
  | (k, v) :: xs => by simp [beqPVEntries, beqPV_refl v, beqPVEntries_refl xs]

end

mutual

theorem beqPV_eq : ∀ a b : PyValue, beqPV a b = true → a = b
  | .none, .none, _ => rfl
  | .bool a, .bool b, h => by simpa [beqPV] using h
  | .int a, .int b, h => by simpa [beqPV] using h
  | .float a, .float b, h => by simpa [beqPV] using h
  | .str a, .str b, h => by simpa [beqPV] using h
  | .list xs, .list ys, h => by
    rw [beqPVList_eq xs ys (by simpa [beqPV] using h)]
  | .dict xs, .dict ys, h => by
    rw [beqPVEntries_eq xs ys (by simpa [beqPV] using h)]
  | .none, .bool _, h => by simp [beqPV] at h
  | .none, .int _, h => by simp [beqPV] at h
  | .none, .float _, h => by simp [beqPV] at h
  | .none, .str _, h => by simp [beqPV] at h
  | .none, .list _, h => by simp [beqPV] at h
  | .none, .dict _, h => by simp [beqPV] at h
  | .bool _, .none, h => by simp [beqPV] at h
  | .bool _, .int _, h => by simp [beqPV] at h
  | .bool _, .float _, h => by simp [beqPV] at h
  | .bool _, .str _, h => by simp [beqPV] at h
  | .bool _, .list _, h => by simp [beqPV] at h
  | .bool _, .dict _, h => by simp [beqPV] at h
  | .int _, .none, h => by simp [beqPV] at h
  | .int _, .bool _, h => by simp [beqPV] at h
  | .int _, .float _, h => by simp [beqPV] at h
  | .int _, .str _, h => by simp [beqPV] at h
  | .int _, .list _, h => by simp [beqPV] at h
  | .int _, .dict _, h => by simp [beqPV] at h
  | .float _, .none, h => by simp [beqPV] at h
  | .float _, .bool _, h => by simp [beqPV] at h
  | .float _, .int _, h => by simp [beqPV] at h
  | .float _, .str _, h => by simp [beqPV] at h
  | .float _, .list _, h => by simp [beqPV] at h
  | .float _, .dict _, h => by simp [beqPV] at h
  | .str _, .none, h => by simp [beqPV] at h
  | .str _, .bool _, h => by simp [beqPV] at h
  | .str _, .int _, h => by simp [beqPV] at h
  | .str _, .float _, h => by simp [beqPV] at h
  | .str _, .list _, h => by simp [beqPV] at h
  | .str _, .dict _, h => by simp [beqPV] at h
  | .list _, .none, h => by simp [beqPV] at h
  | .list _, .bool _, h => by simp [beqPV] at h
  | .list _, .int _, h => by simp [beqPV] at h
  | .list _, .float _, h => by simp [beqPV] at h
  | .list _, .str _, h => by simp [beqPV] at h
  | .list _, .dict _, h => by simp [beqPV] at h
  | .dict _, .none, h => by simp [beqPV] at h
  | .dict _, .bool _, h => by simp [beqPV] at h
  | .dict _, .int _, h => by simp [beqPV] at h
  | .dict _, .float _, h => by simp [beqPV] at h
  | .dict _, .str _, h => by simp [beqPV] at h
  | .dict _, .list _, h => by simp [beqPV] at h

theorem beqPVList_eq : ∀ xs ys : List PyValue, beqPVList xs ys = true → xs = ys
  | [], [], _ => rfl
  | x :: xs, y :: ys, h => by
    simp only [beqPVList, Bool.and_eq_true] at h
    rw [beqPV_eq x y h.1, beqPVList_eq xs ys h.2]
  | [], _ :: _, h => by simp [beqPVList] at h
  | _ :: _, [], h => by simp [beqPVList] at h

theorem beqPVEntries_eq :
    ∀ xs ys : List (Str × PyValue), beqPVEntries xs ys = true → xs = ys
  | [], [], _ => rfl
  | (k, v) :: xs, (k', v') :: ys, h => by
    simp only [beqPVEntries, Bool.and_eq_true, decide_eq_true_eq] at h
    obtain ⟨hk, hv, hrest⟩ := h
    rw [hk, beqPV_eq v v' hv, beqPVEntries_eq xs ys hrest]
  | [], _ :: _, h => by simp [beqPVEntries] at h
  | _ :: _, [], h => by simp [beqPVEntries] at h

end

instance : DecidableEq PyValue := fun a b =>
  decidable_of_iff (beqPV a b = true)
    ⟨beqPV_eq a b, fun h => h ▸ beqPV_refl a⟩

instance {e a : Type} [DecidableEq e] [DecidableEq a] : DecidableEq (Except e a) :=
  fun x y =>
    match x, y with
    | .ok u, .ok v =>
      if h : u = v then isTrue (by rw [h]) else isFalse (fun hc => by cases hc; exact h rfl)
    | .error u, .error v =>
      if h : u = v then isTrue (by rw [h]) else isFalse (fun hc => by cases hc; exact h rfl)
    | .ok _, .error _ => isFalse (fun hc => by cases hc)
    | .error _, .ok _ => isFalse (fun hc => by cases hc)

/-! ## `ftml_core.py` — tokenizer

`FTMLTokenizer` matches the anchored regexes of `TOKEN_REGEX` at the current
position and keeps the match with the strictly greatest length, earlier
patterns winning ties.  Each regex below is deterministic at its start
position except the single-quoted string, whose greedy-with-backtracking
behaviour is reproduced exactly. -/

namespace Core

/-- Token kinds of `ftml_core.TokenType`. -/
inductive TokType where
  | comment | string | singleString | int | float | bool | null | ident
  | lbrace | rbrace | lbracket | rbracket | equal | comma | colon
  | newline | whitespace | eof
  deriving DecidableEq, Repr

/-- The `\w` over ASCII (`[A-Za-z0-9_]`); the inputs of the claims are ASCII. -/
def isWordChar (c : Char) : Bool := c.isAlphanum ∨ c = '_'

/-- The `[A-Za-z_]`. -/
def isIdentStart (c : Char) : Bool := c.isAlpha ∨ c = '_'

/-- The `#[^\n]*` — a comment runs to the end of the line. -/
def matchComment : Str → Option Nat
  | '#' :: t => some (1 + (t.takeWhile (· ≠ '\n')).length)
  | _ => Option.none

/-- Scan the body of `"(?:\\.|[^"\\])*"` after the opening quote: a quote
closes, a backslash consumes the next character unless it is a newline
(`.` does not match `\n`), anything else is consumed raw. -/
def dqScan : Str → Nat → Option Nat
  | [], _ => Option.none
  | '"' :: _, n => some (n + 1)
  | '\\' :: c :: t, n => if c = '\n' then Option.none else dqScan t (n + 2)
  | '\\' :: [], _ => Option.none
  | _ :: t, n => dqScan t (n + 1)

/-- The `"(?:\\.|[^"\\])*"`. -/
def matchDouble : Str → Option Nat
  | '"' :: t => dqScan t 1
  | _ => Option.none

/-- Scan the body of `'(?:''|[^'])*'` after the opening quote.  At a quote
the greedy star first tries to read `''` and continue, backtracking to
closing the string if the rest fails; a lone quote closes. -/
def sqScan : Str → Nat → Option Nat
  | [], _ => Option.none
  | c :: t, n =>
    if c = sqChar then
      match t with
      | c2 :: t2 =>
        if c2 = sqChar then
          match sqScan t2 (n + 2) with
          | some m => some m
          | Option.none => some (n + 1)
        else some (n + 1)
      | [] => some (n + 1)
    else sqScan t (n + 1)

/-- The `'(?:''|[^'])*'`. -/
def matchSingle : Str → Option Nat
  | c :: t => if c = sqChar then sqScan t 1 else Option.none
  | [] => Option.none

/-- Length of the leading digit run. -/
def digitRun (s : Str) : Nat := (s.takeWhile Char.isDigit).length

/-- The `[+-]?\d+` (maximal digit run). -/
def matchInt (s : Str) : Option Nat :=
  let (sgn, rest) :=
    match s with
    | c :: t => if c = '+' ∨ c = '-' then (1, t) else (0, s)
    | [] => (0, s)
  let d := digitRun rest
  if d = 0 then Option.none else some (sgn + d)

/-- The `[+-]?\d+\.\d+`. -/
def matchFloat (s : Str) : Option Nat :=
  let (sgn, rest) :=
    match s with
    | c :: t => if c = '+' ∨ c = '-' then (1, t) else (0, s)
    | [] => (0, s)
  let d1 := digitRun rest
  if d1 = 0 then Option.none
  else
    match rest.drop d1 with
    | '.' :: r2 =>
      let d2 := digitRun r2
      if d2 = 0 then Option.none else some (sgn + d1 + 1 + d2)
    | _ => Option.none

/-- The `\b` before the keyword: start of input or a non-word character just
before the current position. -/
def boundaryBefore (prev : Option Char) : Bool :=
  match prev with
  | Option.none => true
  | some c => ¬ isWordChar c

/-- The `\bKW\b` at the current position (`prev` is the character preceding the
position in the full text). -/
def matchKeyword (kw : Str) (prev : Option Char) (s : Str) : Option Nat :=
  if boundaryBefore prev ∧ kw.isPrefixOf s then
    match (s.drop kw.length).head? with
    | Option.none => some kw.length
    | some c => if isWordChar c then Option.none else some kw.length
  else Option.none

/-- The `\b(true|false)\b`. -/
def matchBool (prev : Option Char) (s : Str) : Option Nat :=
  match matchKeyword "true".data prev s with
  | some n => some n
  | Option.none => matchKeyword "false".data prev s

/-- The `\bnull\b`. -/
def matchNull (prev : Option Char) (s : Str) : Option Nat :=
  matchKeyword "null".data prev s

/-- A literal one-character token. -/
def matchChar (c : Char) : Str → Option Nat
  | c' :: _ => if c' = c then some 1 else Option.none
  | [] => Option.none

/-- The `[A-Za-z_][A-Za-z0-9_]*`. -/
def matchIdent : Str → Option Nat
  | c :: t => if isIdentStart c then some (1 + (t.takeWhile isWordChar).length) else Option.none
  | [] => Option.none

/-- The `[ \t\r]+`. -/
def matchWs (s : Str) : Option Nat :=
  let n := (s.takeWhile (fun c => c = ' ' ∨ c = '\t' ∨ c = '\r')).length
  if n = 0 then Option.none else some n

/-- The `\n`. -/
def matchNewline : Str → Option Nat
  | '\n' :: _ => some 1
  | _ => Option.none

/-- The ordered `TOKEN_REGEX` table, applied at one position. -/
def tokenTable (prev : Option Char) (s : Str) : List (TokType × Option Nat) :=
  [ (.comment, matchComment s)
  , (.string, matchDouble s)
  , (.singleString, matchSingle s)
  , (.float, matchFloat s)
  , (.int, matchInt s)
  , (.bool, matchBool prev s)
  , (.null, matchNull prev s)
  , (.lbrace, matchChar '\x7b' s)
  , (.rbrace, matchChar '\x7d' s)
  , (.lbracket, matchChar '[' s)
  , (.rbracket, matchChar ']' s)
  , (.equal, matchChar '=' s)
  , (.comma, matchChar ',' s)
  , (.colon, matchChar ':' s)
  , (.ident, matchIdent s)
  , (.whitespace, matchWs s)
  , (.newline, matchNewline s)
  ]

/-- The `FTMLTokenizer._match`: the table entry with the strictly greatest
match length; on ties the earlier pattern wins. -/
def bestMatch (entries : List (TokType × Option Nat)) : Option (TokType × Nat) :=
  entries.foldl
    (fun best e =>
      match e.2 with
      | Option.none => best
      | some len =>
        match best with
        | Option.none => some (e.1, len)
        | some (_, blen) => if len > blen then some (e.1, len) else best)
    Option.none

/-- The `_interpret_single_quoted`, after stripping the outer quotes:
`'' → '` is the only escape. -/
def interpretSingle (inner : Str) : Str :=
  replace2 sqChar sqChar [sqChar] inner

/-- The `_interpret_double_quoted`, after stripping the outer quotes: the
sequential replacements `\" → "`, then `\\ → \`, then `\n → newline`,
then `\t → tab`, each scanning the *result* of the previous one. -/
def interpretDouble (inner : Str) : Str :=
  replace2 '\\' 't' ['\t']
    (replace2 '\\' 'n' ['\n']
      (replace2 '\\' '\\' ['\\']
        (replace2 '\\' '"' ['"'] inner)))

/-- A token of `ftml_core` (line/column are not modelled). -/
structure Tok where
  type : TokType
  value : PyValue
  deriving DecidableEq

/-- The payload `next_token` computes for a raw token string. -/
def tokValue (tt : TokType) (raw : Str) : PyValue :=
  match tt with
  | .singleString => .str (interpretSingle (raw.drop 1).dropLast)
  | .string => .str (interpretDouble (raw.drop 1).dropLast)
  | .int => .int (pyParseInt raw)
  | .float => .float raw
  | .bool => .bool (raw = "true".data)
  | .null => .none
  | _ => .str raw

/-- Lexing / parsing errors of `ftml_core` (`ValueError` from the
tokenizer, `ParserError` from the parser).  Messages are structured; the
`fuel` constructor is a model artifact, unreachable on inputs where the
Python loops terminate. -/
inductive Err where
  | lexUnrecognized
  | unexpectedValueToken (t : TokType)
  | unclosedBrace
  | unclosedBracket
  | expectedKey (t : TokType)
  | expectedEqual (key : Str) (t : TokType)
  | unquotedString (name : Str)
  | unexpectedScalarToken (t : TokType)
  | fuel
  deriving DecidableEq, Repr

/-- One pass of `FTMLTokenizer.tokenize`'s loop: match, convert, emit
(whitespace dropped), tracking the previous character for `\b`. -/
def tokenizeLoop (fuel : Nat) (prev : Option Char) (s : Str) (acc : List Tok) :
    Except Err (List Tok) :=
  match fuel with
  | 0 => .error .fuel
  | fuel + 1 =>
    match s with
    | [] => .ok (acc.reverse ++ [⟨.eof, .none⟩])
    | _ =>
      match bestMatch (tokenTable prev s) with
      | Option.none => .error .lexUnrecognized
      | some (tt, len) =>
        let raw := s.take len
        let acc' := if tt = .whitespace then acc else ⟨tt, tokValue tt raw⟩ :: acc
        tokenizeLoop fuel (raw.getLast?) (s.drop len) acc'

/-- The `FTMLTokenizer.tokenize`. -/
def tokenize (text : Str) : Except Err (List Tok) :=
  tokenizeLoop (text.length + 1) Option.none text []

end Core

/-! ## `ftml_core.py` — AST and parser

`FTMLParser` is a recursive-descent parser over the token list.  Its
`while True` loops always consume at least one token per iteration, so a
fuel of `tokens.length + 1` per nesting level is sufficient; `Err.fuel` is
unreachable on inputs where the Python code terminates.  Of the comment
slots of the Python `Node` base class only the two the parser ever writes
are modelled: `leading_comments` of scalars (`parse_scalar`'s COMMENT
branch) and `inline_comment` of key-value pairs
(`_maybe_gather_inline_comment`); `trailing_comments` and the slots of
container nodes are never assigned anywhere in `ftml_core.py`. -/

namespace Core

mutual

/-- AST nodes (`ScalarNode`, `ObjectNode`, `ListNode`). -/
inductive PNode where
  | scalar (leading : List Str) (v : PyValue)
  | obj (items : List PKV)
  | list (elems : List PNode)

/-- The `KeyValueNode`: one `key = value` pair with its optional inline
comment. -/
inductive PKV where
  | mk (key : Str) (value : PNode) (inline : Option Str)

end

/-- The token `peek` returns: the one at `p`, or a synthetic EOF. -/
def peekTok (ts : List Tok) (p : Nat) : Tok :=
  ts.getD p ⟨.eof, .none⟩

/-- How many consecutive tokens from position `p` the parser's
`_skip_nonsemantic` consumes (newlines, whitespace, comments). -/
def countNS : List Tok → Nat
  | t :: rest =>
    if t.type = .newline ∨ t.type = .whitespace ∨ t.type = .comment
    then 1 + countNS rest else 0
  | [] => 0

/-- The `_skip_nonsemantic`: the position after skipping. -/
def skipNS (ts : List Tok) (p : Nat) : Nat :=
  p + countNS (ts.drop p)

/-- A comment token's attached text: `value.lstrip('#').strip()`. -/
def commentText (v : PyValue) : Str :=
  match v with
  | .str s => pyStrip (pyLstripChar '#' s)
  | _ => []

mutual

/-- The `FTMLParser.parse_value`. -/
def parseValue : Nat → List Tok → Nat → Except Err (PNode × Nat)
  | 0, _, _ => .error .fuel
  | fuel + 1, ts, p =>
    let tk := peekTok ts p
    if tk.type = .lbrace then parseObjectLoop fuel ts (p + 1) []
    else if tk.type = .lbracket then parseListLoop fuel ts (p + 1) []
    else if tk.type = .int ∨ tk.type = .float ∨ tk.type = .string ∨
            tk.type = .singleString ∨ tk.type = .bool ∨ tk.type = .null ∨
            tk.type = .ident ∨ tk.type = .comment then
      parseScalar fuel ts p
    else .error (.unexpectedValueToken tk.type)
  termination_by structural fuel => fuel

/-- The `while True` body of `FTMLParser.parse_object` (the `{` is already
consumed). -/
def parseObjectLoop : Nat → List Tok → Nat → List PKV → Except Err (PNode × Nat)
  | 0, _, _, _ => .error .fuel
  | fuel + 1, ts, p, items =>
    let p := skipNS ts p
    let tk := peekTok ts p
    if tk.type = .rbrace then .ok (.obj items.reverse, p + 1)
    else if tk.type = .eof then .error .unclosedBrace
    else
      match parseKeyValue fuel ts p with
      | .error e => .error e
      | .ok (kv, p) =>
        let p := skipNS ts p
        if (peekTok ts p).type = .comma then
          parseObjectLoop fuel ts (p + 1) (kv :: items)
        else parseObjectLoop fuel ts p (kv :: items)
  termination_by structural fuel => fuel

/-- The `FTMLParser.parse_key_value`. -/
def parseKeyValue : Nat → List Tok → Nat → Except Err (PKV × Nat)
  | 0, _, _ => .error .fuel
  | fuel + 1, ts, p =>
    let tk := peekTok ts p
    if tk.type = .ident ∨ tk.type = .string then
      let key := match tk.value with | .str s => s | _ => []
      let p := skipNS ts (p + 1)
      if (peekTok ts p).type = .equal then
        let p := skipNS ts (p + 1)
        match parseValue fuel ts p with
        | .error e => .error e
        | .ok (node, p) =>
          if (peekTok ts p).type = .comment then
            .ok (.mk key node (some (commentText (peekTok ts p).value)), p + 1)
          else .ok (.mk key node Option.none, p)
      else .error (.expectedEqual key (peekTok ts p).type)
    else .error (.expectedKey tk.type)
  termination_by structural fuel => fuel

/-- The `while True` body of `FTMLParser.parse_list` (the `[` is already
consumed). -/
def parseListLoop : Nat → List Tok → Nat → List PNode → Except Err (PNode × Nat)
  | 0, _, _, _ => .error .fuel
  | fuel + 1, ts, p, elems =>
    let p := skipNS ts p
    let tk := peekTok ts p
    if tk.type = .rbracket then .ok (.list elems.reverse, p + 1)
    else if tk.type = .eof then .error .unclosedBracket
    else
      match parseValue fuel ts p with
      | .error e => .error e
      | .ok (elem, p) =>
        let p := skipNS ts p
        if (peekTok ts p).type = .comma then
          parseListLoop fuel ts (p + 1) (elem :: elems)
        else parseListLoop fuel ts p (elem :: elems)
  termination_by structural fuel => fuel

/-- The `FTMLParser.parse_scalar`. -/
def parseScalar : Nat → List Tok → Nat → Except Err (PNode × Nat)
  | 0, _, _ => .error .fuel
  | fuel + 1, ts, p =>
    let tk := peekTok ts p
    if tk.type = .comment then
      match parseScalar fuel ts (p + 1) with
      | .error e => .error e
      | .ok (node, p') =>
        match node with
        | .scalar leading v => .ok (.scalar (commentText tk.value :: leading) v, p')
        | other => .ok (other, p')
    else if tk.type = .string ∨ tk.type = .singleString ∨ tk.type = .int ∨
            tk.type = .float ∨ tk.type = .bool then
      .ok (.scalar [] tk.value, p + 1)
    else if tk.type = .null then .ok (.scalar [] .none, p + 1)
    else if tk.type = .ident then
      .error (.unquotedString (match tk.value with | .str s => s | _ => []))
    else .error (.unexpectedScalarToken tk.type)
  termination_by structural fuel => fuel

end

/-- The `FTMLParser.parse_document` (the `DocumentNode` wrapper adds nothing:
its `data` is exactly the parsed value and trailing tokens are not
checked). -/
def parseDocument (ts : List Tok) : Except Err PNode :=
  (parseValue (ts.length + 1) ts 0).map (·.1)

mutual

/-- The `ast_to_data`: strip the AST (and all its comments) down to a plain
Python value; object items are written into a fresh dict in order, a
repeated key silently overwriting the earlier value. -/
def astToData : PNode → PyValue
  | .scalar _ v => v
  | .obj items => .dict (astItems items [])
  | .list elems => .list (astElems elems)

/-- The `for kv in node.items: out[kv.key] = ast_to_data(kv.value_node)`
loop of `ast_to_data`. -/
def astItems : List PKV → Assoc → Assoc
  | [], acc => acc
  | .mk k node _ :: t, acc => astItems t (pyInsert acc k (astToData node))

/-- The list comprehension of `ast_to_data`. -/
def astElems : List PNode → List PyValue
  | [] => []
  | n :: t => astToData n :: astElems t

end

/-- The `ftml_core.load`: tokenize, parse, convert to data. -/
def load (text : Str) : Except Err PyValue := do
  let ts ← tokenize text
  let node ← parseDocument ts
  pure (astToData node)

mutual

/-- The `data_to_ast`: rebuild a comment-free AST from a plain value. -/
def dataToAst : PyValue → PNode
  | .dict entries => .obj (dataItems entries)
  | .list xs => .list (dataElems xs)
  | v => .scalar [] v

/-- The dict loop of `data_to_ast`. -/
def dataItems : List (Str × PyValue) → List PKV
  | [] => []
  | (k, v) :: t => .mk k (dataToAst v) Option.none :: dataItems t

/-- The list loop of `data_to_ast`. -/
def dataElems : List PyValue → List PNode
  | [] => []
  | v :: t => dataToAst v :: dataElems t

end

/-- The `_scalar_to_str`.  A string value only has its double quotes escaped
(`value.replace('"', '\\"')`); an int prints via `str`; a float prints its
stored literal (Python's `str(float)` normalisation is not modelled — no
claim serialises a float). -/
def scalarToStr : PyValue → Str
  | .none => "null".data
  | .bool b => if b then "true".data else "false".data
  | .str s => '"' :: replace1 '"' ['\\', '"'] s ++ ['"']
  | .int n => pyIntRepr n
  | .float lit => lit
  | v => (toString (typeName v).asString).data

/-- Python `'\n'.join(lines)`. -/
def joinNL : List Str → Str
  | [] => []
  | [x] => x
  | x :: rest => x ++ '\n' :: joinNL rest

mutual

/-- The `serialize_ast`.  Objects always print as a `{` line, one
`  key = value,` line per item, and a `}` line; lists print `[]` when
empty and bracket lines otherwise (the `indent` parameter of the Python
code is threaded but never used in the emitted text). -/
def serializeAst : PNode → Str
  | .scalar _ v => scalarToStr v
  | .obj items => joinNL (("\x7b".data) :: serialItems items ++ ["\x7d".data])
  | .list elems =>
    match elems with
    | [] => "[]".data
    | _ => joinNL (("[".data) :: serialElems elems ++ ["]".data])

/-- Object item lines of `serialize_ast`. -/
def serialItems : List PKV → List Str
  | [] => []
  | .mk k node _ :: t =>
    ("  ".data ++ k ++ " = ".data ++ serializeAst node ++ [',']) :: serialItems t

/-- List element lines of `serialize_ast`. -/
def serialElems : List PNode → List Str
  | [] => []
  | n :: t => ("  ".data ++ serializeAst n ++ [',']) :: serialElems t

end

/-- The `ftml_core.dump`. -/
def dump (data : PyValue) : Str :=
  serializeAst (dataToAst data)

end Core

/-! ## `ftml/__init__.py` — public `load`

The public `load` wraps any exception from the core parse in
`FTMLParseError`.  Its validation block (steps 2 and 4 of the function
body) reads the `schema` and `validate` arguments but performs no
validation: the body of `if validate:` is `pass`.  The “`ftml_data` is an
existing file path” branch does file I/O and is outside this model: the
argument here is always document text. -/

/-- Errors escaping the public API. -/
inductive ApiErr where
  | parseError (e : Core.Err)
  deriving DecidableEq, Repr

set_option linter.unusedVariables false in
/-- The `ftml.load(ftml_data, schema, validate)`. -/
def ftmlLoad (text : Str) (schema : Option Str) (validate : Bool) :
    Except ApiErr PyValue :=
  match Core.load text with
  | .error e => .error (.parseError e)
  | .ok v => .ok v

/-! ## `tokenizer.py` + `parser.py` — the `FTMLDocument` front-end

`tokenizer.py` tries its `_token_specs` regexes *in order* and takes the
first that matches (not the longest).  `parser.py` declares its *own*
`TokenType` enum — a class distinct from the tokenizer's, though the
member names largely coincide.  In Python, members of two different
`Enum` classes never compare equal, and `FTMLDocument.load` feeds the
tokenizer's tokens straight into `FTMLParser`, whose every comparison is
against the parser's enum: each such comparison is `False`, so `parse()`
raises its initial `Expected '{' or '[' at start` error on *every*
tokenizer-produced input.  The model keeps the two enums as two distinct
types; a token's dynamically typed `type` field holds a member of either
(`AnyTT`), and `enumEq` is Python `==` on enum members.  Token lists
hand-built over the parser's enum — as `tests/classes/test_ftml_parser.py`
constructs them — drive the parser meaningfully. -/

namespace DocParser

/-- Members of `tokenizer.TokenType` (`tokenizer.py`). -/
inductive TkTT where
  | identifier | string | integer | float | boolean | null
  | lbrace | rbrace | lbracket | rbracket | equal | comma | colon
  | pipe | question | plus | star | comment
  deriving DecidableEq, Repr

/-- Members of `parser.TokenType` (`parser.py`) — a distinct enum class. -/
inductive PTT where
  | lbrace | rbrace | lbracket | rbracket | colon | equal | comma
  | pipe | question | identifier | string | float | integer | boolean
  | null | whitespace | newline | eof
  deriving DecidableEq, Repr

/-- What a token's dynamically typed `type` field can hold at runtime: a
member of either enum class. -/
inductive AnyTT where
  | tk (t : TkTT)
  | pt (t : PTT)
  deriving DecidableEq, Repr

/-- Python `==` on enum members: true only for the same member of the
same enum class; members of different classes never compare equal. -/
def enumEq : AnyTT → AnyTT → Bool
  | .tk a, .tk b => a = b
  | .pt a, .pt b => a = b
  | _, _ => false

/-- Python `str()` of a `tokenizer.TokenType` member, as it renders in
error f-strings. -/
def tkStr : TkTT → Str
  | .identifier => "TokenType.IDENTIFIER".data
  | .string => "TokenType.STRING".data
  | .integer => "TokenType.INTEGER".data
  | .float => "TokenType.FLOAT".data
  | .boolean => "TokenType.BOOLEAN".data
  | .null => "TokenType.NULL".data
  | .lbrace => "TokenType.LBRACE".data
  | .rbrace => "TokenType.RBRACE".data
  | .lbracket => "TokenType.LBRACKET".data
  | .rbracket => "TokenType.RBRACKET".data
  | .equal => "TokenType.EQUAL".data
  | .comma => "TokenType.COMMA".data
  | .colon => "TokenType.COLON".data
  | .pipe => "TokenType.PIPE".data
  | .question => "TokenType.QUESTION".data
  | .plus => "TokenType.PLUS".data
  | .star => "TokenType.STAR".data
  | .comment => "TokenType.COMMENT".data

/-- Python `str()` of a `parser.TokenType` member. -/
def ptStr : PTT → Str
  | .lbrace => "TokenType.LBRACE".data
  | .rbrace => "TokenType.RBRACE".data
  | .lbracket => "TokenType.LBRACKET".data
  | .rbracket => "TokenType.RBRACKET".data
  | .colon => "TokenType.COLON".data
  | .equal => "TokenType.EQUAL".data
  | .comma => "TokenType.COMMA".data
  | .pipe => "TokenType.PIPE".data
  | .question => "TokenType.QUESTION".data
  | .identifier => "TokenType.IDENTIFIER".data
  | .string => "TokenType.STRING".data
  | .float => "TokenType.FLOAT".data
  | .integer => "TokenType.INTEGER".data
  | .boolean => "TokenType.BOOLEAN".data
  | .null => "TokenType.NULL".data
  | .whitespace => "TokenType.WHITESPACE".data
  | .newline => "TokenType.NEWLINE".data
  | .eof => "TokenType.EOF".data

/-- Python `str()` of whatever enum member a token carries (both classes
are named `TokenType`, so both print with that prefix). -/
def ttName : AnyTT → Str
  | .tk t => tkStr t
  | .pt t => ptStr t

/-- A token of the front-end: its `type` field holds a member of
whichever enum the producer used. -/
structure Tok where
  type : AnyTT
  value : PyValue
  deriving DecidableEq

/-- Regex `-?\d+\.\d+` (no `+` sign in this tokenizer). -/
def matchFloatTk (s : Str) : Option Nat :=
  let (sgn, rest) :=
    match s with
    | '-' :: t => (1, t)
    | _ => (0, s)
  let d1 := Core.digitRun rest
  if d1 = 0 then Option.none
  else
    match rest.drop d1 with
    | '.' :: r2 =>
      let d2 := Core.digitRun r2
      if d2 = 0 then Option.none else some (sgn + d1 + 1 + d2)
    | _ => Option.none

/-- Regex `-?\d+`. -/
def matchIntTk (s : Str) : Option Nat :=
  let (sgn, rest) :=
    match s with
    | '-' :: t => (1, t)
    | _ => (0, s)
  let d := Core.digitRun rest
  if d = 0 then Option.none else some (sgn + d)

/-- Regex `true|false` — no word boundaries: a prefix match suffices. -/
def matchBoolTk (s : Str) : Option Nat :=
  if ("true".data).isPrefixOf s then some 4
  else if ("false".data).isPrefixOf s then some 5
  else Option.none

/-- Regex `null` — plain prefix match. -/
def matchNullTk (s : Str) : Option Nat :=
  if ("null".data).isPrefixOf s then some 4 else Option.none

/-- The `_token_specs`, in source order; the first entry that matches
wins.  The tags are the *tokenizer's* enum members. -/
def tokenSpecs (s : Str) : List (TkTT × Option Nat) :=
  [ (.string, Core.matchDouble s)
  , (.comment, Core.matchComment s)
  , (.float, matchFloatTk s)
  , (.integer, matchIntTk s)
  , (.boolean, matchBoolTk s)
  , (.null, matchNullTk s)
  , (.lbrace, Core.matchChar '\x7b' s)
  , (.rbrace, Core.matchChar '\x7d' s)
  , (.lbracket, Core.matchChar '[' s)
  , (.rbracket, Core.matchChar ']' s)
  , (.equal, Core.matchChar '=' s)
  , (.comma, Core.matchChar ',' s)
  , (.colon, Core.matchChar ':' s)
  , (.pipe, Core.matchChar '|' s)
  , (.question, Core.matchChar '?' s)
  , (.plus, Core.matchChar '+' s)
  , (.star, Core.matchChar '*' s)
  , (.identifier, Core.matchIdent s)
  ]

/-- First matching spec. -/
def firstMatch : List (TkTT × Option Nat) → Option (TkTT × Nat)
  | [] => Option.none
  | (tt, res) :: rest =>
    match res with
    | some len => some (tt, len)
    | Option.none => firstMatch rest

/-- The `_next_token`'s payload conversion: a string drops its quotes and
only unescapes `\"`; booleans/ints/floats/null convert; everything else
keeps its raw text. -/
def tokValueTk (tt : TkTT) (raw : Str) : PyValue :=
  match tt with
  | .string => .str (replace2 '\\' '"' ['"'] ((raw.drop 1).dropLast))
  | .boolean => .bool (raw = "true".data)
  | .integer => .int (pyParseInt raw)
  | .float => .float raw
  | .null => .none
  | _ => .str raw

/-- The `FTMLTokenizer.tokenize` of `tokenizer.py`: skip whitespace
characters, take the first matching spec, drop COMMENT tokens (the
comparison against COMMENT is within the tokenizer's own enum and so
works); an unmatched character raises `FTMLParseError`.  Every emitted
token is tagged with a *tokenizer-enum* member. -/
def tokenizeTk (fuel : Nat) (s : Str) (acc : List Tok) :
    Except Str (List Tok) :=
  match fuel with
  | 0 => .error "model: out of fuel".data
  | fuel + 1 =>
    match s with
    | [] => .ok acc.reverse
    | c :: t =>
      if c.isWhitespace then tokenizeTk fuel t acc
      else
        match firstMatch (tokenSpecs (c :: t)) with
        | Option.none => .error ("Unexpected character ".data ++ [c])
        | some (tt, len) =>
          let raw := (c :: t).take len
          let acc' := if tt = .comment then acc
                      else ⟨.tk tt, tokValueTk tt raw⟩ :: acc
          tokenizeTk fuel ((c :: t).drop len) acc'

/-- Public tokenize entry. -/
def tokenize (text : Str) : Except Str (List Tok) :=
  tokenizeTk (text.length + 1) text []

/-- The parser's current token; `advance` past the end yields an EOF
token that the parser builds itself, with *its own* enum. -/
def curTok (ts : List Tok) (p : Nat) : Tok :=
  ts.getD p ⟨.pt .eof, .none⟩

/-- The `skip_whitespace` of `parser.py`: WHITESPACE/NEWLINE compared via
Python `==` against the *parser's* enum. -/
def countWsTok : List Tok → Nat
  | t :: rest =>
    if enumEq t.type (.pt .whitespace) || enumEq t.type (.pt .newline) then
      1 + countWsTok rest
    else 0
  | [] => 0

/-- Position after `skip_whitespace`. -/
def skipWs (ts : List Tok) (p : Nat) : Nat :=
  p + countWsTok (ts.drop p)

/-- The `parse_dict_key`: the key token must be IDENTIFIER or STRING (of
the parser's enum); a key whose *string value* ends in `?` marks the
field optional and loses the `?`.  A non-string token payload is not a
meaningful dict key in this model (the claims never produce one). -/
def parseDictKey (ts : List Tok) (p : Nat) :
    Except Str ((Str × Bool) × Nat) :=
  let tk := curTok ts p
  if enumEq tk.type (.pt .identifier) || enumEq tk.type (.pt .string) then
    match tk.value with
    | .str raw =>
      if raw ≠ [] ∧ raw.getLast? = some '?' then .ok ((raw.dropLast, true), p + 1)
      else .ok ((raw, false), p + 1)
    | _ => .error "model: non-string key token".data
  else .error ("Expected dict key, got ".data ++ ttName tk.type)

/-- The `parse_type_definition`: collect IDENTIFIER texts and pipes (a pipe
prints as a padded `" | "`) until a token outside a type expression. -/
def parseTypeDefLoop (fuel : Nat) (ts : List Tok) (p : Nat) (parts : Str) :
    Str × Nat :=
  match fuel with
  | 0 => (parts, p)
  | fuel + 1 =>
    let p := skipWs ts p
    let tk := curTok ts p
    if enumEq tk.type (.pt .comma) || enumEq tk.type (.pt .equal) ||
       enumEq tk.type (.pt .rbracket) || enumEq tk.type (.pt .rbrace) ||
       enumEq tk.type (.pt .eof) then (parts, p)
    else if enumEq tk.type (.pt .pipe) then
      parseTypeDefLoop fuel ts (p + 1) (parts ++ " | ".data)
    else if enumEq tk.type (.pt .identifier) then
      match tk.value with
      | .str s => parseTypeDefLoop fuel ts (p + 1) (parts ++ s)
      | _ => parseTypeDefLoop fuel ts (p + 1) parts
    else (parts, p)

/-- The `maybe_parse_typed_field`: after a `:`, parse a type string. -/
def maybeTypedField (fuel : Nat) (ts : List Tok) (p : Nat) :
    Option (Str × Nat) :=
  let p := skipWs ts p
  if enumEq (curTok ts p).type (.pt .colon) then
    let p := skipWs ts (p + 1)
    some (parseTypeDefLoop fuel ts p [])
  else Option.none

mutual

/-- The `parse_value` of `parser.py`. -/
def parseVal : Nat → List Tok → Nat → Except Str (PyValue × Nat)
  | 0, _, _ => .error "model: out of fuel".data
  | fuel + 1, ts, p =>
    let p := skipWs ts p
    let tk := curTok ts p
    if enumEq tk.type (.pt .lbrace) then parseDictLoop fuel ts (p + 1) []
    else if enumEq tk.type (.pt .lbracket) then parseListLoop fuel ts (p + 1) []
    else if enumEq tk.type (.pt .string) || enumEq tk.type (.pt .identifier) ||
            enumEq tk.type (.pt .float) || enumEq tk.type (.pt .integer) ||
            enumEq tk.type (.pt .boolean) || enumEq tk.type (.pt .null) then
      .ok (tk.value, p + 1)
    else .error ("Unexpected token, cannot parse as value: ".data ++ ttName tk.type)
  termination_by structural fuel => fuel

/-- The field loop of `parse_dict` (the `{` is already consumed).  An
untyped field stores its value directly; a typed field stores the dict
`{"type": …, "optional": …, "value": …}` — and never a `"default"` key. -/
def parseDictLoop : Nat → List Tok → Nat → Assoc → Except Str (PyValue × Nat)
  | 0, _, _, _ => .error "model: out of fuel".data
  | fuel + 1, ts, p, acc =>
    let p := skipWs ts p
    let tk := curTok ts p
    if enumEq tk.type (.pt .rbrace) then .ok (.dict acc, p + 1)
    else if enumEq tk.type (.pt .eof) then .error "Unclosed dict".data
    else
      match parseDictKey ts p with
      | .error e => .error e
      | .ok ((key, opt), p) =>
        match maybeTypedField fuel ts p with
        | some (tdef, p) =>
          let p := skipWs ts p
          if enumEq (curTok ts p).type (.pt .equal) then
            let p := skipWs ts (p + 1)
            match parseVal fuel ts p with
            | .error e => .error e
            | .ok (v, p) =>
              dictFieldCont fuel ts p
                (pyInsert acc key (.dict
                  [("type".data, .str tdef), ("optional".data, .bool opt),
                   ("value".data, v)]))
          else
            dictFieldCont fuel ts p
              (pyInsert acc key (.dict
                [("type".data, .str tdef), ("optional".data, .bool opt),
                 ("value".data, .none)]))
        | Option.none =>
          let p := skipWs ts p
          if enumEq (curTok ts p).type (.pt .equal) then
            let p := skipWs ts (p + 1)
            match parseVal fuel ts p with
            | .error e => .error e
            | .ok (v, p) => dictFieldCont fuel ts p (pyInsert acc key v)
          else
            .error ("Expected TokenType.EQUAL, got ".data ++
                    ttName (curTok ts p).type)
  termination_by structural fuel => fuel

/-- After one dict field: expect `,` (continue) or `}` (stop; the final
`consume(RBRACE)` then succeeds immediately). -/
def dictFieldCont : Nat → List Tok → Nat → Assoc → Except Str (PyValue × Nat)
  | 0, _, _, _ => .error "model: out of fuel".data
  | fuel + 1, ts, p, acc =>
    let p := skipWs ts p
    let tk := curTok ts p
    if enumEq tk.type (.pt .comma) then parseDictLoop fuel ts (p + 1) acc
    else if enumEq tk.type (.pt .rbrace) then .ok (.dict acc, p + 1)
    else .error ("Expected comma or rbrace after dict field, got ".data ++
                 ttName tk.type)
  termination_by structural fuel => fuel

/-- The item loop of `parse_list` (the `[` is already consumed); a `:` at
item position parses `:type value` into `{"type": …, "value": …}`. -/
def parseListLoop : Nat → List Tok → Nat → List PyValue → Except Str (PyValue × Nat)
  | 0, _, _, _ => .error "model: out of fuel".data
  | fuel + 1, ts, p, items =>
    let p := skipWs ts p
    let tk := curTok ts p
    if enumEq tk.type (.pt .rbracket) then .ok (.list items.reverse, p + 1)
    else if enumEq tk.type (.pt .eof) then .error "Unclosed list".data
    else if enumEq tk.type (.pt .colon) then
      let (tdef, p) := parseTypeDefLoop fuel ts (skipWs ts (p + 1)) []
      let p := skipWs ts p
      match parseVal fuel ts p with
      | .error e => .error e
      | .ok (v, p) =>
        listItemCont fuel ts p
          (PyValue.dict [("type".data, .str tdef), ("value".data, v)] :: items)
    else
      match parseVal fuel ts p with
      | .error e => .error e
      | .ok (v, p) => listItemCont fuel ts p (v :: items)
  termination_by structural fuel => fuel

/-- After one list item: expect `,` or `]`. -/
def listItemCont : Nat → List Tok → Nat → List PyValue → Except Str (PyValue × Nat)
  | 0, _, _, _ => .error "model: out of fuel".data
  | fuel + 1, ts, p, items =>
    let p := skipWs ts p
    let tk := curTok ts p
    if enumEq tk.type (.pt .comma) then parseListLoop fuel ts (p + 1) items
    else if enumEq tk.type (.pt .rbracket) then .ok (.list items.reverse, p + 1)
    else .error ("Expected comma or rbracket after list item, got ".data ++
                 ttName tk.type)
  termination_by structural fuel => fuel

end

/-- The `FTMLParser.parse`: a single top-level dict or list, checked via
Python `==` against the *parser's* enum — always false for a token the
tokenizer produced (the message abbreviates Python's
`Expected` curly-or-bracket f-string). -/
def parse (ts : List Tok) : Except Str PyValue :=
  let p := skipWs ts 0
  let tk := curTok ts p
  if enumEq tk.type (.pt .lbrace) then
    (parseDictLoop (ts.length + 1) ts (p + 1) []).map (·.1)
  else if enumEq tk.type (.pt .lbracket) then
    (parseListLoop (ts.length + 1) ts (p + 1) []).map (·.1)
  else .error ("Expected lbrace or lbracket at start, got ".data ++ ttName tk.type)

/-- The tokenizer+parser composition `FTMLDocument.load` performs.  The
tokens carry tokenizer-enum tags, the parser compares against its own
enum, so this fails on every input (proved below). -/
def docParse (text : Str) : Except Str PyValue := do
  let ts ← tokenize text
  parse ts

end DocParser

/-! ## `ftml_data.py` — `simplify_data` -/

mutual

/-- The `simplify_data`: in a dict, an entry whose value is itself a dict
containing a `"type"` key is replaced by that dict's `"default"` entry
(`None` when absent); other entries recurse. -/
def simplifyData : PyValue → PyValue
  | .dict entries => .dict (simplifyEntries entries)
  | .list xs => .list (simplifyElems xs)
  | v => v

/-- The dict loop of `simplify_data`. -/
def simplifyEntries : List (Str × PyValue) → List (Str × PyValue)
  | [] => []
  | (k, v) :: t => (k, simplifyEntryVal v) :: simplifyEntries t

/-- One dict entry of `simplify_data`: a dict value carrying a `"type"`
key becomes its `"default"` (or `None`); any other value is simplified
recursively (the dict and list cases spell out `simplify_data`'s own
body). -/
def simplifyEntryVal : PyValue → PyValue
  | .dict d =>
    if pyContains d "type".data then pyGetD d "default".data .none
    else .dict (simplifyEntries d)
  | .list xs => .list (simplifyElems xs)
  | v => v

/-- The list branch of `simplify_data`. -/
def simplifyElems : List PyValue → List PyValue
  | [] => []
  | v :: t => simplifyData v :: simplifyElems t

end

/-- The `FTMLDocument.load` (no schema) followed by `to_dict`: parse the
text through the `tokenizer.py`/`parser.py` pipeline and simplify.
Because the parse stage fails on every input (the enum mismatch), this
pipeline never reaches `simplify_data`. -/
def docLoadToDict (text : Str) : Except Str PyValue :=
  (DocParser.docParse text).map simplifyData

/-! ## `validator.py` — `FTMLValidator`

The validator raises `ValidationError` at the first violation (modelled by
`Except`), and it *mutates its arguments*: `_validate_field` writes a
missing field's default into the caller's data dict
(`data[clean_key] = value  # Inject default into data`), and
`_validate_dict` does the same for nested dicts.  Mutation is modelled by
returning the final state of the mutated dict next to the result; when a
nested dict obtained from `data[clean_key]` is mutated, the update is
written back into `data`, reflecting that in Python both names alias one
object.  (One aliasing effect is *not* modelled: an injected default is
the schema's own object, so Python may later mutate the schema through it;
no claim depends on this.)  The schema arguments of the claims are dicts;
where Python would raise `TypeError`/`AttributeError`/`KeyError` on other
shapes the model returns an error tagged accordingly. -/

namespace Validator

/-- Python `s.startswith(pre)`. -/
def pyStartsWith (pre s : Str) : Bool := pre.isPrefixOf s

/-- The classes appearing in `_check_type`'s `type_map`, plus `object`
(the `.get` fallback). -/
inductive PyType where
  | strT | intT | floatT | boolT | dictT | listT | noneT | objT
  deriving DecidableEq, Repr

/-- The `type_map.get(type_name, object)`. -/
def typeMapGet (t : Str) : PyType :=
  if t = "str".data then .strT
  else if t = "int".data then .intT
  else if t = "float".data then .floatT
  else if t = "bool".data then .boolT
  else if t = "dict".data then .dictT
  else if t = "list".data then .listT
  else if t = "null".data then .noneT
  else .objT

/-- Python `isinstance`.  `bool` is a subclass of `int`, so a bool is an
instance of `int`; an int is not an instance of `float`; everything is an
instance of `object`. -/
def isInstance (v : PyValue) (ty : PyType) : Bool :=
  match ty, v with
  | .strT, .str _ => true
  | .intT, .int _ => true
  | .intT, .bool _ => true
  | .floatT, .float _ => true
  | .boolT, .bool _ => true
  | .dictT, .dict _ => true
  | .listT, .list _ => true
  | .noneT, .none => true
  | .objT, _ => true
  | _, _ => false

/-- Python `v is None`. -/
def isNone : PyValue → Bool
  | .none => true
  | _ => false

/-- The `_is_valid_type`: `null` accepts `None` outright; otherwise
`isinstance` against the mapped class. -/
def isValidType (v : PyValue) (t : Str) : Bool :=
  if t = "null".data then
    if isNone v then true else isInstance v (typeMapGet t)
  else isInstance v (typeMapGet t)

/-- The `_check_type(value, expected_type)`.  `None` accepts anything; a
string type is split on `|` into stripped alternatives when it contains a
pipe; a non-string, non-`None` type makes Python raise
(`'|' in expected_type` or an unhashable/attribute error) whichever branch
runs.  The union mismatch message abbreviates the Python list `repr`. -/
def checkType (v : PyValue) (expected : PyValue) : Except Str Unit :=
  match expected with
  | .none => .ok ()
  | .str t =>
    if '|' ∈ t then
      let types := (pySplit '|' t).map pyStrip
      if types.any (fun ti => isValidType v ti) then .ok ()
      else .error ("Type mismatch. Expected one of ".data ++ t ++
                   ", got ".data ++ typeName v)
    else if isValidType v t then .ok ()
    else .error ("Type mismatch. Expected ".data ++ t ++ ", got ".data ++ typeName v)
  | other => .error ("TypeError: expected_type ".data ++ typeName other)

/-- The key loop of `_check_duplicate_keys`, with its `seen_keys` set. -/
def dupGo (seen : List Str) : List Str → Except Str Unit
  | [] => .ok ()
  | k :: t =>
    if k ∈ seen then
      .error ("Duplicate key ".data ++ [sqChar] ++ k ++ [sqChar] ++
              " found in data".data)
    else dupGo (k :: seen) t

/-- The `_check_duplicate_keys(data)`: iterate `data.keys()` recording each in
a set and raising on a repeat. -/
def checkDuplicateKeys (data : Assoc) : Except Str Unit :=
  dupGo [] (data.map (·.1))

/-- The per-item `_check_type` loop shared by `_validate_list` and the
multiplicity branch of `_validate_field`: first error aborts. -/
def checkItems (ty : PyValue) : List PyValue → Except Str Unit
  | [] => .ok ()
  | v :: t =>
    match checkType v ty with
    | .error e => .error e
    | .ok _ => checkItems ty t

/-- The `_validate_list(value, schema_def)`: must be a list; when
`schema_def.get('item_type')` is truthy, every element is type-checked. -/
def validateListV (v : PyValue) (sd : Assoc) : Except Str Unit :=
  match v with
  | .list xs =>
    let itemType := pyGetD sd "item_type".data .none
    if pyTruthy itemType then checkItems itemType xs else .ok ()
  | _ => .error ("Expected list, got ".data ++ typeName v)

mutual

/-- The `_validate_value(key, value, schema_def)`: recurse into dicts whose
schema type starts with `dict`, lists whose schema type starts with
`list`, and type-check everything else.  Returns the possibly mutated
`value`. -/
def validateValueV : Nat → Str → PyValue → PyValue → Except Str Unit × PyValue
  | 0, _, v, _ => (.error "model: out of fuel".data, v)
  | fuel + 1, key, v, sdef =>
    match sdef with
    | .dict sd =>
      match v, pyLookup sd "type".data with
      | .dict ventries, some (.str t) =>
        if pyStartsWith "dict".data t then
          let (r, ventries') := validateDictV fuel ventries sd
          (r, .dict ventries')
        else (checkType v (pyGetD sd "type".data .none), v)
      | .dict ventries, some other =>
        (.error ("AttributeError: startswith on ".data ++ typeName other),
         .dict ventries)
      | .list xs, some (.str t) =>
        if pyStartsWith "list".data t then (validateListV (.list xs) sd, v)
        else (checkType v (pyGetD sd "type".data .none), v)
      | .list xs, some other =>
        (.error ("AttributeError: startswith on ".data ++ typeName other),
         .list xs)
      | _, _ => (checkType v (pyGetD sd "type".data .none), v)
    | _ => (.error "model: schema_def is not a dict".data, v)
  termination_by structural fuel => fuel

/-- The `_validate_dict(value, schema_def)`: walk
`schema_def.get('fields', {})`. -/
def validateDictV : Nat → Assoc → Assoc → Except Str Unit × Assoc
  | 0, value, _ => (.error "model: out of fuel".data, value)
  | fuel + 1, value, sd =>
    match pyGetD sd "fields".data (.dict []) with
    | .dict fl => validateDictFields fuel fl value
    | _ => (.error "model: fields is not a dict".data, value)
  termination_by structural fuel => fuel

/-- The field loop of `_validate_dict`: a present field is validated (and
its possibly mutated value written back); a missing field gets its
`default` injected into the value dict, or raises unless `optional` is
truthy. -/
def validateDictFields : Nat → List (Str × PyValue) → Assoc → Except Str Unit × Assoc
  | 0, _, value => (.error "model: out of fuel".data, value)
  | fuel + 1, fields, value =>
    match fields with
    | [] => (.ok (), value)
    | (field, fschema) :: rest =>
      match pyLookup value field with
      | some fv =>
        let (r, fv') := validateValueV fuel field fv fschema
        let value' := pyInsert value field fv'
        match r with
        | .error e => (.error e, value')
        | .ok _ => validateDictFields fuel rest value'
      | Option.none =>
        match fschema with
        | .dict fsd =>
          match pyLookup fsd "default".data with
          | some dv => validateDictFields fuel rest (pyInsert value field dv)
          | Option.none =>
            if pyTruthy (pyGetD fsd "optional".data .none) then
              validateDictFields fuel rest value
            else (.error ("Missing required field: ".data ++ field), value)
        | _ => (.error "model: field schema is not a dict".data, value)
  termination_by structural fuel => fuel

/-- The `_validate_field(key, schema_def, data)`.  A key whose last character
is `?`/`*`/`+` takes the multiplicity branch; otherwise the value is
`data[clean_key]`, or the injected default, or the field is optional, or
a `Missing required field` error.  Returns the final state of `data`. -/
def validateFieldV : Nat → Str → PyValue → Assoc → Except Str Unit × Assoc
  | 0, _, _, data => (.error "model: out of fuel".data, data)
  | fuel + 1, key, sdef, data =>
    match sdef with
    | .dict sd =>
      match key.getLast? with
      | Option.none => (.error "IndexError: string index out of range".data, data)
      | some last =>
        let cleanKey := pyRstripSet key ['?', '*', '+']
        if last = '?' ∨ last = '*' ∨ last = '+' then
          match pyGetD data cleanKey (.list []) with
          | .list xs =>
            if last = '+' ∧ xs.length < 1 then
              (.error ("Field ".data ++ cleanKey ++ "+ requires at least one item".data), data)
            else if last = '?' ∧ xs.length > 1 then
              (.error ("Field ".data ++ cleanKey ++ "? allows maximum one item".data), data)
            else
              match xs with
              | [] => (.ok (), data)
              | _ =>
                match pyLookup sd "type".data with
                | some ty => (checkItems ty xs, data)
                | Option.none => (.error "KeyError: type".data, data)
          | _ =>
            (.error "model: multiplicity items are not a list".data, data)
        else
          match pyLookup data cleanKey with
          | some v => fieldValueCheck fuel cleanKey v sd data
          | Option.none =>
            match pyLookup sd "default".data with
            | some dv => fieldValueCheck fuel cleanKey dv sd (pyInsert data cleanKey dv)
            | Option.none =>
              if pyTruthy (pyGetD sd "optional".data .none) then (.ok (), data)
              else (.error ("Missing required field: ".data ++ cleanKey), data)
    | _ => (.error "model: schema_def is not a dict".data, data)

/-- The tail of `_validate_field` once a value is at hand: recurse through
`_validate_dict` when the schema has `fields` (writing the mutated nested
dict back into `data`), else `_check_type` against `schema_def['type']`. -/
def fieldValueCheck : Nat → Str → PyValue → Assoc → Assoc → Except Str Unit × Assoc
  | 0, _, _, _, data => (.error "model: out of fuel".data, data)
  | fuel + 1, cleanKey, v, sd, data =>
    if pyContains sd "fields".data then
      match v with
      | .dict ventries =>
        let (r, ventries') := validateDictV fuel ventries sd
        (r, pyInsert data cleanKey (.dict ventries'))
      | _ =>
        (.error ("Expected dict for field ".data ++ cleanKey ++ ", got ".data ++
                 typeName v), data)
    else
      match pyLookup sd "type".data with
      | some ty => (checkType v ty, data)
      | Option.none => (.error "KeyError: type".data, data)

end

/-- The schema loop of `validate`: `_validate_field` for each schema
entry, in insertion order; the first raise aborts.  On success Python
returns `True`. -/
def validateFieldsV (fuel : Nat) : Assoc → Assoc → Except Str Bool × Assoc
  | [], data => (.ok true, data)
  | (k, sdef) :: rest, data =>
    match validateFieldV fuel k sdef data with
    | (.ok _, d') => validateFieldsV fuel rest d'
    | (.error e, d') => (.error e, d')

/-- The `FTMLValidator.validate(data)` for the validator built over `schema`:
duplicate-key check, then the per-field walk. -/
def validate (fuel : Nat) (schema : Assoc) (data : Assoc) : Except Str Bool × Assoc :=
  match checkDuplicateKeys data with
  | .error e => (.error e, data)
  | .ok _ => validateFieldsV fuel schema data

end Validator

/-! ## Helper lemmas -/

/-- The `pySplit` always yields at least one piece. -/
theorem pySplit_ne_nil (sep : Char) (s : Str) : pySplit sep s ≠ [] := by
  induction s with
  | nil => simp [pySplit]
  | cons c t ih =>
    simp only [pySplit]
    split <;> split_ifs <;> simp

/-- No piece produced by `pySplit` contains the separator. -/
theorem not_mem_of_mem_pySplit {sep : Char} {s p : Str}
    (hp : p ∈ pySplit sep s) : sep ∉ p := by
  induction s generalizing p with
  | nil =>
    simp only [pySplit, List.mem_singleton] at hp
    subst hp; simp
  | cons c t ih =>
    simp only [pySplit] at hp
    cases h : pySplit sep t with
    | nil => exact absurd h (pySplit_ne_nil sep t)
    | cons hd tl =>
      rw [h] at hp
      dsimp only at hp
      by_cases hc : c = sep
      · rw [if_pos hc] at hp
        rcases List.mem_cons.mp hp with hpe | hp2
        · subst hpe; simp
        · exact ih (h ▸ hp2)
      · rw [if_neg hc] at hp
        rcases List.mem_cons.mp hp with hpe | hp2
        · subst hpe
          intro hmem
          rcases List.mem_cons.mp hmem with hce | hmem2
          · exact hc hce.symm
          · exact ih (h ▸ List.mem_cons_self hd tl) hmem2
        · exact ih (h ▸ List.mem_cons_of_mem hd hp2)

/-- Stripping only removes characters: membership descends to the
original string. -/
theorem mem_of_mem_pyStrip {c : Char} {s : Str} (h : c ∈ pyStrip s) : c ∈ s := by
  unfold pyStrip at h
  rw [List.mem_reverse] at h
  have h2 := (List.dropWhile_sublist (l := (s.dropWhile isPySpace).reverse)
    (p := isPySpace)).subset h
  rw [List.mem_reverse] at h2
  exact (List.dropWhile_sublist (l := s) (p := isPySpace)).subset h2

/-- Assigning an absent key appends the pair at the end. -/
theorem pyInsert_of_lookup_none {d : Assoc} {k : Str} (v : PyValue)
    (h : pyLookup d k = Option.none) : pyInsert d k v = d ++ [(k, v)] := by
  induction d with
  | nil => simp [pyInsert]
  | cons e t ih =>
    obtain ⟨k', v'⟩ := e
    simp only [pyLookup] at h
    by_cases hk : k' = k
    · simp [hk] at h
    · simp only [pyInsert, if_neg hk, List.cons_append, List.cons.injEq, true_and]
      exact ih (by simpa [hk] using h)

/-- A key list with no repetition threads `dupGo`'s seen-set through to
success, provided it is also disjoint from the seen keys so far. -/
theorem dupGo_ok {keys : List Str} (seen : List Str)
    (hn : keys.Nodup) (hd : ∀ k ∈ keys, k ∉ seen) :
    Validator.dupGo seen keys = .ok () := by
  induction keys generalizing seen with
  | nil => rfl
  | cons k t ih =>
    have hk : k ∉ seen := hd k (List.mem_cons_self k t)
    simp only [Validator.dupGo, if_neg hk]
    refine ih (k :: seen) (List.Nodup.of_cons hn) ?_
    intro k' hk' hmem
    rcases List.mem_cons.mp hmem with rfl | hmem
    · exact (List.nodup_cons.mp hn).1 hk'
    · exact hd k' (List.mem_cons_of_mem k hk') hmem

/-- A string whose last character is not in `set` is unchanged by
`rstrip`. -/
theorem pyRstripSet_eq_self {s : Str} {c : Char} {set : List Char}
    (hlast : s.getLast? = some c) (hc : c ∉ set) :
    pyRstripSet s set = s := by
  unfold pyRstripSet
  have hrev : s.reverse.head? = some c := by
    rw [List.head?_reverse]; exact hlast
  cases hr : s.reverse with
  | nil => simp [hr] at hrev
  | cons x xs =>
    rw [hr] at hrev
    have hx : x = c := by simpa using hrev
    subst hx
    rw [List.dropWhile_cons_of_neg (by simpa using hc)]
    rw [← hr, List.reverse_reverse]


/-- With no `fields` key in the schema entry, the tail of
`_validate_field` only type-checks and leaves its data argument as
received. -/
theorem fieldValueCheck_snd_of_no_fields (fuel : Nat) (k : Str) (v : PyValue)
    {sd : Assoc} (data : Assoc) (hnf : pyContains sd "fields".data = false) :
    (Validator.fieldValueCheck fuel k v sd data).2 = data := by
  cases fuel with
  | zero => rfl
  | succ f =>
    simp only [Validator.fieldValueCheck, hnf, Bool.false_eq_true, if_false]
    cases pyLookup sd "type".data <;> rfl

/-! ## Claim theorems -/

/-- Claim C1. The document `'name = "John"\nage = 30\n'` — newline-separated
root key-value pairs with no enclosing brace — does *not* parse:
`parse_value` sends the bare identifier `name` to `parse_scalar`, which
raises `ParserError` (surfaced by the public `load` as `FTMLParseError`),
instead of returning `{name: "John", age: 30}` as the spec and the
repository's own tests (`tests/test_basic_parsing.py`,
`tests/parser/nodes/test_root_structure.py`) require. -/
theorem braceless_root_parse_fails :
    ftmlLoad "name = \"John\"\nage = 30\n".data Option.none true
      = .error (.parseError (.unquotedString "name".data)) := by decide

/-- Claim C2. Round-trip fidelity fails on comments: loading the document
`'{\nvalue = "hello"  # comment here\n}'` succeeds but returns a plain
value with every comment discarded, and dumping that value yields a
document containing no `#` at all — although the source document contains
one (the repository's own `tests/test_comments.py` requires comments to
survive a load/dump round trip). -/
theorem load_dump_drops_comments :
    Core.load "\x7b\nvalue = \"hello\"  # comment here\n\x7d".data
      = .ok (.dict [("value".data, .str "hello".data)]) ∧
    Core.dump (.dict [("value".data, .str "hello".data)])
      = "\x7b\n  value = \"hello\",\n\x7d".data ∧
    '#' ∈ "\x7b\nvalue = \"hello\"  # comment here\n\x7d".data ∧
    '#' ∉ "\x7b\n  value = \"hello\",\n\x7d".data := by
  refine ⟨by decide, by decide, by decide, by decide⟩

/-- Claim C3. A document with two equal keys at the same level does *not*
fail to parse: `'{color = "blue", color = "red"}'` loads without error and
silently keeps the second value (`ast_to_data` writes both pairs into one
dict), although the repository's own
`tests/parser/nodes/test_duplicate_keys.py` requires a
`Duplicate key` error. -/
theorem duplicate_keys_kept_silently :
    ftmlLoad "\x7bcolor = \"blue\", color = \"red\"\x7d".data Option.none true
      = .ok (.dict [("color".data, .str "red".data)]) := by
  have h1 : Core.tokenize "\x7bcolor = \"blue\", color = \"red\"\x7d".data
      = .ok [⟨.lbrace, .str "\x7b".data⟩, ⟨.ident, .str "color".data⟩,
             ⟨.equal, .str "=".data⟩, ⟨.string, .str "blue".data⟩,
             ⟨.comma, .str ",".data⟩, ⟨.ident, .str "color".data⟩,
             ⟨.equal, .str "=".data⟩, ⟨.string, .str "red".data⟩,
             ⟨.rbrace, .str "\x7d".data⟩, ⟨.eof, .none⟩] := by decide
  unfold ftmlLoad Core.load
  rw [h1]
  decide

/-- Claim C4, counterexample. Validation does not collect an error list:
with two required fields both missing, `FTMLValidator.validate` aborts at
the first `Missing required field` and the second field's error — which
`_validate_field` alone would raise — never appears; and the public `load`
with a schema and `validate=true` returns the parsed data with no error at
all instead of a wrapping error listing the entries. -/
theorem first_error_only_counterexample :
    Validator.validate 9
        [("a".data, .dict [("type".data, .str "int".data)]),
         ("b".data, .dict [("type".data, .str "int".data)])] []
      = (.error "Missing required field: a".data, []) ∧
    (Validator.validateFieldV 9 "b".data
        (.dict [("type".data, .str "int".data)]) []).1
      = .error "Missing required field: b".data ∧
    ("Missing required field: a".data : Str) ≠ "Missing required field: b".data ∧
    ftmlLoad "\x7b\x7d".data (some "a: int".data) true = .ok (.dict []) :=
  ⟨by decide, by decide, by decide, by decide⟩

/-- Claim C4, amended. `FTMLValidator.validate` raises at the *first*
validation error rather than collecting a list, and the public `load`
performs no validation at all: its result is independent of the `schema`
and `validate` arguments. -/
theorem load_skips_validation :
    (∀ (text : Str) (schema : Option Str) (v : Bool),
      ftmlLoad text schema v = ftmlLoad text Option.none false) ∧
    Validator.validate 9
        [("a".data, .dict [("type".data, .str "int".data)]),
         ("b".data, .dict [("type".data, .str "int".data)])] []
      = (.error "Missing required field: a".data, []) :=
  ⟨fun _ _ _ => rfl, by decide⟩

/-- Claim C5, counterexample. Validation is not pure in its data argument:
validating the empty data dict against the schema
`{age: {type: int, default: 18}}` succeeds but hands back the caller's
data with `age = 18` written into it — a different dict from the empty
one passed in. -/
theorem validate_mutates_data_counterexample :
    Validator.validate 9
        [("age".data, .dict [("type".data, .str "int".data),
                             ("default".data, .int 18)])] []
      = (.ok true, [("age".data, .int 18)]) ∧
    ([("age".data, PyValue.int 18)] : Assoc) ≠ [] :=
  ⟨by decide, by simp⟩

/-- Claim C5, amended. `_validate_field` materialises a missing field's
default *into the caller's data dict*: for any schema entry without a
multiplicity suffix and without nested `fields`, if the key is absent
from `data` and the entry carries a `default`, the data dict comes back
with the default appended (`data[clean_key] = value` in the source) —
regardless of whether the subsequent type check passes. -/
theorem validate_field_injects_default (fuel : Nat) (key : Str) (c : Char)
    (sd : Assoc) (data : Assoc) (dv : PyValue)
    (hlast : key.getLast? = some c)
    (h1 : c ≠ '?') (h2 : c ≠ '*') (h3 : c ≠ '+')
    (hmiss : pyLookup data key = Option.none)
    (hdef : pyLookup sd "default".data = some dv)
    (hnf : pyContains sd "fields".data = false) :
    (Validator.validateFieldV (fuel + 1) key (.dict sd) data).2
      = data ++ [(key, dv)] := by
  have hclean : pyRstripSet key ['?', '*', '+'] = key :=
    pyRstripSet_eq_self hlast (by simp [h1, h2, h3])
  simp only [Validator.validateFieldV, hlast, hclean]
  rw [if_neg (by simp [h1, h2, h3]), hmiss]
  dsimp only
  rw [hdef]
  dsimp only
  rw [fieldValueCheck_snd_of_no_fields fuel key dv (pyInsert data key dv) hnf]
  exact pyInsert_of_lookup_none dv hmiss

/-- Witness for C5 (amended): schema entry `{type: int, default: 18}`,
key `age`, empty data. -/
theorem validate_field_injects_default_witness :
    ("age".data.getLast? = some 'e' ∧
     pyLookup [] "age".data = Option.none ∧
     pyLookup [("type".data, PyValue.str "int".data),
               ("default".data, PyValue.int 18)] "default".data
       = some (PyValue.int 18) ∧
     pyContains [("type".data, PyValue.str "int".data),
                 ("default".data, PyValue.int 18)] "fields".data = false) ∧
    (Validator.validateFieldV 1 "age".data
        (.dict [("type".data, .str "int".data), ("default".data, .int 18)])
        []).2
      = [] ++ [("age".data, PyValue.int 18)] :=
  ⟨⟨rfl, rfl, rfl, rfl⟩,
   validate_field_injects_default 0 "age".data 'e' _ [] _ rfl
     (by decide) (by decide) (by decide) rfl rfl rfl⟩

/-- Claim C6, counterexample. The source escape sequence
backslash-backslash-n inside a double-quoted string does *not* decode to a
literal backslash followed by `n`: loading `'{k = "\\n"}'` (where the
document contains backslash, backslash, `n`) yields the one-character
string newline, because the decoder's sequential `replace` calls first
collapse `\\` to `\` and then reinterpret the result as the `\n` escape. -/
theorem double_backslash_n_decodes_newline :
    Core.load "\x7bk = \"\\\\n\"\x7d".data
      = .ok (.dict [("k".data, .str ['\n'])]) ∧
    (['\n'] : Str) ≠ ['\\', 'n'] :=
  ⟨by decide, by decide⟩

/-- Claim C6, amended. `_interpret_double_quoted` decodes by the four
sequential replacements `\" → "`, `\\ → \`, `\n → newline`, `\t → tab`
(in that order, each pass scanning the previous pass's output), so `\\n`
decodes to a newline and `\\t` to a tab; the escapes `\r \a \b \f \v` are
*not* decoded to control characters but pass through raw; and
single-quoted strings are decoded only by collapsing `''` to `'`. -/
theorem escape_decode_table :
    Core.interpretDouble ['\\', '"'] = ['"'] ∧
    Core.interpretDouble ['\\', '\\'] = ['\\'] ∧
    Core.interpretDouble ['\\', 'n'] = ['\n'] ∧
    Core.interpretDouble ['\\', 't'] = ['\t'] ∧
    Core.interpretDouble ['\\', 'r'] = ['\\', 'r'] ∧
    Core.interpretDouble ['\\', 'a'] = ['\\', 'a'] ∧
    Core.interpretDouble ['\\', 'b'] = ['\\', 'b'] ∧
    Core.interpretDouble ['\\', 'f'] = ['\\', 'f'] ∧
    Core.interpretDouble ['\\', 'v'] = ['\\', 'v'] ∧
    Core.interpretDouble ['\\', '\\', 'n'] = ['\n'] ∧
    Core.interpretDouble ['\\', '\\', 't'] = ['\t'] ∧
    Core.interpretSingle [sqChar, sqChar] = [sqChar] ∧
    Core.interpretSingle ['\\', 'n'] = ['\\', 'n'] := by
  decide

/-- Helper for C7/C9: every token `tokenizer.py` emits is tagged with a
member of the *tokenizer's* enum. -/
theorem tokenizeTk_all_tk (fuel : Nat) :
    ∀ (s : Str) (acc : List DocParser.Tok),
      (∀ t ∈ acc, ∃ x, t.type = DocParser.AnyTT.tk x) →
      ∀ ts, DocParser.tokenizeTk fuel s acc = .ok ts →
      ∀ t ∈ ts, ∃ x, t.type = DocParser.AnyTT.tk x := by
  induction fuel with
  | zero => intro s acc hacc ts h; exact absurd h (by simp [DocParser.tokenizeTk])
  | succ f ih =>
    intro s acc hacc ts h
    match s with
    | [] =>
      simp only [DocParser.tokenizeTk, Except.ok.injEq] at h
      subst h
      intro t ht
      exact hacc t (List.mem_reverse.mp ht)
    | c :: rest =>
      simp only [DocParser.tokenizeTk] at h
      by_cases hw : c.isWhitespace
      · rw [if_pos hw] at h
        exact ih rest acc hacc ts h
      · rw [if_neg hw] at h
        cases hfm : DocParser.firstMatch (DocParser.tokenSpecs (c :: rest)) with
        | none => rw [hfm] at h; exact absurd h (by simp)
        | some r =>
          obtain ⟨tt, len⟩ := r
          rw [hfm] at h
          dsimp only at h
          refine ih _ _ ?_ ts h
          intro t ht
          by_cases hc : tt = DocParser.TkTT.comment
          · rw [if_pos hc] at ht
            exact hacc t ht
          · rw [if_neg hc] at ht
            rcases List.mem_cons.mp ht with hte | hte
            · exact ⟨tt, by rw [hte]⟩
            · exact hacc t hte

/-- Helper for C7/C9: `FTMLParser.parse` rejects any token list whose
tokens are all tokenizer-tagged — every enum comparison is between the
two distinct classes and so is false. -/
theorem parse_fails_on_tk (ts : List DocParser.Tok)
    (h : ∀ t ∈ ts, ∃ x, t.type = DocParser.AnyTT.tk x) :
    (DocParser.parse ts).isOk = false := by
  cases ts with
  | nil => rfl
  | cons t rest =>
    obtain ⟨x, hx⟩ := h t (List.mem_cons_self t rest)
    simp [DocParser.parse, DocParser.skipWs, DocParser.countWsTok,
          DocParser.curTok, DocParser.enumEq, hx, Except.isOk, Except.toBool]

/-- Helper for C7/C9: the `FTMLDocument.load` pipeline of
`tokenizer.py` into `parser.py` fails on every input text. -/
theorem docParse_never_ok (text : Str) :
    (DocParser.docParse text).isOk = false := by
  unfold DocParser.docParse
  cases h : DocParser.tokenize text with
  | error e => rfl
  | ok ts =>
    have hall : ∀ t ∈ ts, ∃ x, t.type = DocParser.AnyTT.tk x := by
      refine tokenizeTk_all_tk (text.length + 1) text [] ?_ ts ?_
      · intro t ht; exact absurd ht (List.not_mem_nil t)
      · exact h
    exact parse_fails_on_tk ts hall

/-- Claim C7, counterexample. The schema field declaration `name?: str`
does *not* parse — it never even reaches field parsing: the tokens built
by `tokenizer.py` carry that module's `TokenType` members, `FTMLParser`
compares them against its own distinct `TokenType` enum, every comparison
is false, and `parse()` fails at its very first check with its
`Expected` lbrace-or-lbracket error; no optional field is ever
recorded. -/
theorem optional_suffix_fails_to_parse :
    DocParser.docParse "\x7bname?: str = \"Alice\"\x7d".data
      = .error ("Expected lbrace or lbracket at start, got TokenType.LBRACE".data) := by
  decide

/-- Claim C7, amended. The textual form `name?: str` cannot parse through
`FTMLDocument.load` at all: `tokenizer.py` and `parser.py` declare
distinct `TokenType` enum classes whose members never compare equal, so
the pipeline fails on *every* input.  Even driving `parser.py` directly
with tokens of its own enum, `name?: str` still fails — `?` lexes as its
own QUESTION token, which the parser rejects expecting `=` — and a field
is recorded optional only when the key token's own string value ends in
`?` (a directly constructed IDENTIFIER token `name?`, exactly as
`tests/classes/test_ftml_parser.py` builds). -/
theorem optional_flag_from_key_token :
    (∀ text : Str, (DocParser.docParse text).isOk = false) ∧
    DocParser.parse
        [⟨.pt .lbrace, .str "\x7b".data⟩, ⟨.pt .identifier, .str "name".data⟩,
         ⟨.pt .question, .str "?".data⟩, ⟨.pt .colon, .str ":".data⟩,
         ⟨.pt .identifier, .str "str".data⟩, ⟨.pt .equal, .str "=".data⟩,
         ⟨.pt .string, .str "Alice".data⟩, ⟨.pt .rbrace, .str "\x7d".data⟩]
      = .error ("Expected TokenType.EQUAL, got TokenType.QUESTION".data) ∧
    DocParser.parse
        [⟨.pt .lbrace, .str "\x7b".data⟩, ⟨.pt .identifier, .str "name?".data⟩,
         ⟨.pt .colon, .str ":".data⟩, ⟨.pt .identifier, .str "str".data⟩,
         ⟨.pt .equal, .str "=".data⟩, ⟨.pt .string, .str "Alice".data⟩,
         ⟨.pt .rbrace, .str "\x7d".data⟩]
      = .ok (.dict [("name".data,
          .dict [("type".data, .str "str".data),
                 ("optional".data, .bool true),
                 ("value".data, .str "Alice".data)])]) :=
  ⟨docParse_never_ok, by decide, by decide⟩

/-- Claim C8. Union coverage: if a value validates cleanly against one of
the stripped alternatives of a pipe-carrying union type string, then it
validates cleanly against the union itself (`_check_type` accepts when
`any` alternative matches). -/
theorem union_coverage (v : PyValue) (t ti : Str)
    (hpipe : '|' ∈ t)
    (hti : ti ∈ (pySplit '|' t).map pyStrip)
    (hok : Validator.checkType v (.str ti) = .ok ()) :
    Validator.checkType v (.str t) = .ok () := by
  obtain ⟨part, hpart, hstrip⟩ := List.mem_map.mp hti
  have hnp : '|' ∉ ti := fun hmem =>
    not_mem_of_mem_pySplit hpart (mem_of_mem_pyStrip (hstrip ▸ hmem))
  have hvalid : Validator.isValidType v ti = true := by
    simp only [Validator.checkType] at hok
    rw [if_neg hnp] at hok
    by_cases hv : Validator.isValidType v ti = true
    · exact hv
    · rw [if_neg hv] at hok
      exact absurd hok (by simp)
  have hany : ((pySplit '|' t).map pyStrip).any
      (fun x => Validator.isValidType v x) = true :=
    List.any_eq_true.mpr ⟨ti, hti, hvalid⟩
  simp only [Validator.checkType]
  rw [if_pos hpipe, if_pos hany]

/-- Witness for C8: the string `"x"` validates against `str`, hence
against the union `int | str`. -/
theorem union_coverage_witness :
    ('|' ∈ "int | str".data ∧
     "str".data ∈ (pySplit '|' "int | str".data).map pyStrip ∧
     Validator.checkType (.str "x".data) (.str "str".data) = .ok ()) ∧
    Validator.checkType (.str "x".data) (.str "int | str".data) = .ok () :=
  ⟨⟨by decide, by decide, rfl⟩,
   union_coverage (.str "x".data) "int | str".data "str".data
     (by decide) (by decide) rfl⟩

/-- Claim C9, counterexample. The claim's own example never happens:
`FTMLDocument.load` feeds `tokenizer.py` tokens into `parser.py`, whose
enum comparisons against the tokenizer's distinct `TokenType` class are
all false, so loading `'\x7bname: str = "John"\x7d'` raises before
`to_dict`/`simplify_data` can run — nothing is "parsed through
FTMLDocument.load". -/
theorem doc_to_dict_example_never_parses :
    docLoadToDict "\x7bname: str = \"John\"\x7d".data
      = .error ("Expected lbrace or lbracket at start, got TokenType.LBRACE".data) := by
  decide

/-- Claim C9, amended. `FTMLDocument.load` itself parses no document (the
enum mismatch above).  Driving `parser.py` directly with tokens of its
own enum — as `tests/classes/test_ftml_parser.py` does — a typed field
`key ':' type ['=' value]` parses to the dict
`{"type": …, "optional": …, "value": …}`, with no `"default"` key ever
set, and `simplify_data` maps such an entry to its absent `"default"`,
i.e. to `None`, discarding the parsed value: the token sequence of
`'\x7bname: str = "John"\x7d'` parses with value `"John"` but simplifies
to `\x7bname: None\x7d`; in general any entry of that three-key shape
simplifies to `None` whatever its type, optional flag and value. -/
theorem typed_fields_simplify_to_none :
    DocParser.parse
        [⟨.pt .lbrace, .str "\x7b".data⟩, ⟨.pt .identifier, .str "name".data⟩,
         ⟨.pt .colon, .str ":".data⟩, ⟨.pt .identifier, .str "str".data⟩,
         ⟨.pt .equal, .str "=".data⟩, ⟨.pt .string, .str "John".data⟩,
         ⟨.pt .rbrace, .str "\x7d".data⟩]
      = .ok (.dict [("name".data,
          .dict [("type".data, .str "str".data),
                 ("optional".data, .bool false),
                 ("value".data, .str "John".data)])]) ∧
    simplifyData (.dict [("name".data,
        .dict [("type".data, .str "str".data),
               ("optional".data, .bool false),
               ("value".data, .str "John".data)])])
      = .dict [("name".data, .none)] ∧
    ∀ (k : Str) (t o v : PyValue) (rest : List (Str × PyValue)),
      simplifyEntries ((k, .dict [("type".data, t), ("optional".data, o),
                                  ("value".data, v)]) :: rest)
        = (k, PyValue.none) :: simplifyEntries rest :=
  ⟨by decide, by decide, fun _ _ _ _ _ => rfl⟩

/-- Claim C10. The validator's duplicate-key check is vacuous: iterating the
keys of a Python dict (whose keys are unique by construction) never
revisits a key, so `_check_duplicate_keys` always succeeds and
`FTMLValidator.validate` reduces to the per-field walk — the
`Duplicate key` branch is unreachable. -/
theorem duplicate_check_vacuous (data : Assoc)
    (h : (data.map Prod.fst).Nodup) :
    Validator.checkDuplicateKeys data = .ok () ∧
    ∀ (fuel : Nat) (schema : Assoc),
      Validator.validate fuel schema data
        = Validator.validateFieldsV fuel schema data := by
  have h1 : Validator.checkDuplicateKeys data = .ok () :=
    dupGo_ok [] h (fun k _ hk => absurd hk (List.not_mem_nil k))
  refine ⟨h1, fun fuel schema => ?_⟩
  unfold Validator.validate
  rw [h1]

/-- Witness for C10: a two-key dict. -/
theorem duplicate_check_vacuous_witness :
    ((([("a".data, PyValue.int 1), ("b".data, PyValue.int 2)] : Assoc).map
        Prod.fst).Nodup) ∧
    Validator.checkDuplicateKeys
        [("a".data, PyValue.int 1), ("b".data, PyValue.int 2)] = .ok () :=
  ⟨by decide,
   (duplicate_check_vacuous
     [("a".data, PyValue.int 1), ("b".data, PyValue.int 2)] (by decide)).1⟩
